import Mathlib

/-!
Verification development for the sentiment-analysis backend in `src/main.py`
(`Dustless-web/sentient-x-engine`).

Python strings are modelled as `List Char` (sequences of code points), and
Python floats produced by the classifier as rationals (`ℚ`): the only float
operations the code performs on a confidence are negation and the identity,
which are exact.  The sentiment classifier (`analyzer = pipeline(...)`), the
HTTP fetch and the HTML parser are external collaborators and enter as
parameters.  Wall-clock fields (`meta.processing_time`) are omitted from the
model as non-deterministic real time; no claim mentions them.
-/

namespace SentientX

/-- Python's whitespace set, as used by `str.split()` and `str.strip()`
(ASCII whitespace plus the Unicode space separators Python recognises). -/
def isPySpace (c : Char) : Bool :=
  let n := c.toNat
  n = 0x20 || (0x09 <= n && n <= 0x0d) || (0x1c <= n && n <= 0x1f) ||
  n = 0x85 || n = 0xa0 || n = 0x1680 || (0x2000 <= n && n <= 0x200a) ||
  n = 0x2028 || n = 0x2029 || n = 0x202f || n = 0x205f || n = 0x3000

/-- Python `str.strip()`: drop whitespace from both ends. -/
def pyStrip (l : List Char) : List Char :=
  ((l.dropWhile isPySpace).reverse.dropWhile isPySpace).reverse

/-- Helper for `pySplit`: `acc` holds the (reversed) token being built. -/
def pySplitAux : List Char → List Char → List (List Char)
  | [], acc => if acc.isEmpty then [] else [acc.reverse]
  | c :: cs, acc =>
    if isPySpace c then
      if acc.isEmpty then pySplitAux cs [] else acc.reverse :: pySplitAux cs []
    else
      pySplitAux cs (c :: acc)

/-- Python `str.split()` with no argument: split on runs of whitespace,
producing no empty tokens. -/
def pySplit (text : List Char) : List (List Char) :=
  pySplitAux text []

/-- `extract_keywords` from `src/main.py`:
`words = [w.strip() for w in text.split() if len(w) > 3]`,
`return ",".join(words[:3]) if words else "General"`. -/
def extract_keywords (text : List Char) : List Char :=
  let words := (pySplit text).filterMap
    (fun w => if 3 < w.length then some (pyStrip w) else none)
  if words.isEmpty then "General".toList
  else List.intercalate [','] (words.take 3)

/-- Output of one call to the external sentiment classifier:
`result['label']` and `result['score']` in `perform_analysis`. -/
structure ClassifierOutput where
  label : String
  confidence : ℚ
deriving DecidableEq

/-- The record returned by `perform_analysis` in `src/main.py`. -/
structure AnalysisResult where
  text : List Char
  score : ℚ
  label : String
  confidence : ℚ
  keywords : List Char
deriving DecidableEq

/-- `perform_analysis` from `src/main.py`: truncate to 500 characters
(`safe_text = text[:500]`), classify, map the label and confidence to a
signed score, and attach keywords extracted from the original text. -/
def perform_analysis (analyzer : List Char → ClassifierOutput)
    (text : List Char) : AnalysisResult :=
  let safe_text := text.take 500
  let result := analyzer safe_text
  let label := result.label
  let confidence := result.confidence
  let score := if label = "POSITIVE" then confidence else -confidence
  { text := text
    score := score
    label := label
    confidence := confidence
    keywords := extract_keywords text }

/-- Response shape of the `/analyze_list` endpoint:
`{"total_scanned": ..., "results": ...}` (no error key exists). -/
structure ListResponse where
  total_scanned : ℕ
  results : List AnalysisResult
deriving DecidableEq

/-- `analyze_list` from `src/main.py`. -/
def analyze_list (analyzer : List Char → ClassifierOutput)
    (items : List (List Char)) : ListResponse :=
  let results := items.map (perform_analysis analyzer)
  { total_scanned := results.length, results := results }

/-- Helper for `splitlines`: `acc` holds the (reversed) current line.
A final segment is emitted only when non-empty, matching Python
`str.splitlines()` (no trailing empty line after a final line break). -/
def splitlinesAux : List Char → List Char → List (List Char)
  | [], acc => if acc.isEmpty then [] else [acc.reverse]
  | '\r' :: '\n' :: rest, acc => acc.reverse :: splitlinesAux rest []
  | c :: rest, acc =>
    if c = '\n' || c = '\r' || c = '\x0b' || c = '\x0c' || c = '\x1c' ||
        c = '\x1d' || c = '\x1e' || c = '\x85' || c.toNat = 0x2028 ||
        c.toNat = 0x2029 then
      acc.reverse :: splitlinesAux rest []
    else
      splitlinesAux rest (c :: acc)

/-- Python `str.splitlines()`: split on the Python line-boundary set,
treating `\r\n` as a single boundary. -/
def splitlines (s : List Char) : List (List Char) :=
  splitlinesAux s []

/-- Python `bytes.decode("utf-8")`: strict UTF-8 decoding of a byte sequence
(bytes as naturals < 256), rejecting truncated sequences, stray continuation
bytes, overlong encodings, surrogates and code points above U+10FFFF —
exactly the inputs on which the code raises `UnicodeDecodeError`. -/
def utf8Decode : List ℕ → Option (List Char)
  | [] => some []
  | b :: rest =>
    if b < 0x80 then
      (utf8Decode rest).map (fun cs => Char.ofNat b :: cs)
    else if 0xc2 ≤ b ∧ b ≤ 0xdf then
      match rest with
      | b1 :: rest1 =>
        if 0x80 ≤ b1 ∧ b1 ≤ 0xbf then
          (utf8Decode rest1).map
            (fun cs => Char.ofNat ((b - 0xc0) * 0x40 + (b1 - 0x80)) :: cs)
        else none
      | [] => none
    else if 0xe0 ≤ b ∧ b ≤ 0xef then
      match rest with
      | b1 :: b2 :: rest2 =>
        if ((if b = 0xe0 then 0xa0 else 0x80) ≤ b1 ∧
            b1 ≤ (if b = 0xed then 0x9f else 0xbf)) ∧
            (0x80 ≤ b2 ∧ b2 ≤ 0xbf) then
          (utf8Decode rest2).map
            (fun cs => Char.ofNat ((b - 0xe0) * 0x1000 +
              (b1 - 0x80) * 0x40 + (b2 - 0x80)) :: cs)
        else none
      | _ => none
    else if 0xf0 ≤ b ∧ b ≤ 0xf4 then
      match rest with
      | b1 :: b2 :: b3 :: rest3 =>
        if ((if b = 0xf0 then 0x90 else 0x80) ≤ b1 ∧
            b1 ≤ (if b = 0xf4 then 0x8f else 0xbf)) ∧
            (0x80 ≤ b2 ∧ b2 ≤ 0xbf) ∧ (0x80 ≤ b3 ∧ b3 ≤ 0xbf) then
          (utf8Decode rest3).map
            (fun cs => Char.ofNat ((b - 0xf0) * 0x40000 +
              (b1 - 0x80) * 0x1000 + (b2 - 0x80) * 0x40 + (b3 - 0x80)) :: cs)
        else none
      | _ => none
    else none

/-- `MAX_ROWS` from `analyze_file`: "The Safety Cap to prevent server
timeouts". -/
def MAX_ROWS : ℕ := 500

/-- Response of the `/analyze_bulk` endpoint: either
`{"error": msg}` (decode failure; no `results` and no `meta` key), or
`{"total_scanned", "results", "meta": {"processing_time", "warning"}}`.
The non-deterministic `processing_time` field is omitted. -/
inductive FileResponse where
  | failed (msg : String)
  | ok (total_scanned : ℕ) (results : List AnalysisResult)
      (warning : Option String)
deriving DecidableEq

/-- The `for line in decoded_content` loop of `analyze_file`, with the
`break` once `len(results) >= MAX_ROWS`, the blank-line skip
(`if line.strip():`), the first-column comma split
(`line.split(",")[0] if "," in line else line`) and the minimum trimmed
length filter (`if len(text.strip()) > 5`). -/
def fileLoop (analyzer : List Char → ClassifierOutput) :
    List (List Char) → List AnalysisResult → List AnalysisResult
  | [], results => results
  | line :: rest, results =>
    if MAX_ROWS ≤ results.length then results
    else if (pyStrip line).isEmpty then fileLoop analyzer rest results
    else
      let text := if ',' ∈ line then line.takeWhile (fun c => c ≠ ',') else line
      if 5 < (pyStrip text).length then
        fileLoop analyzer rest (results ++ [perform_analysis analyzer text])
      else
        fileLoop analyzer rest results

/-- `analyze_file` from `src/main.py` (endpoint `/analyze_bulk`): decode the
uploaded bytes strictly as UTF-8, split into lines, run the capped loop, and
attach a warning iff the decoded line count exceeds `MAX_ROWS`. -/
def analyze_file (analyzer : List Char → ClassifierOutput)
    (content : List ℕ) : FileResponse :=
  match utf8Decode content with
  | none => .failed "Invalid file encoding. Use UTF-8."
  | some decoded =>
    let decoded_content := splitlines decoded
    let results := fileLoop analyzer decoded_content []
    .ok results.length results
      (if MAX_ROWS < decoded_content.length then
        some "Capped at 500 rows to prevent timeout."
      else none)

/-- Response of the `/scrape` endpoint success path: either
`{"total_scanned", "results"}` or `{"error": msg, "results": []}`. -/
inductive ScrapeResponse where
  | ok (total_scanned : ℕ) (results : List AnalysisResult)
  | failed (msg : String) (results : List AnalysisResult)
deriving DecidableEq

/-- `scrape_url` from `src/main.py`, after the external HTTP fetch and HTML
parse: `pTexts` is the list of `p.text` values for the `<p>` elements found
by the parser, in document order.  The code keeps
`[p.text.strip() for p in soup.find_all('p') if len(p.text.strip()) > 20]`,
truncates to 50 (`paragraphs[:50]`), returns the "no readable paragraph"
payload when nothing remains, and otherwise classifies each paragraph. -/
def scrape_url (analyzer : List Char → ClassifierOutput)
    (pTexts : List (List Char)) : ScrapeResponse :=
  let paragraphs := pTexts.filterMap
    (fun p => if 20 < (pyStrip p).length then some (pyStrip p) else none)
  let paragraphs := paragraphs.take 50
  if paragraphs.isEmpty then
    .failed "No readable paragraph text found on this URL." []
  else
    let results := paragraphs.map (perform_analysis analyzer)
    .ok results.length results

/-! ## Spec-side definitions (for refinement comparisons) -/

/-- The keyword rule as the spec words it: split on whitespace, retain
tokens of length > 3 preserving order, take the first 3, join with ",",
default "General". -/
def specKeywordExtract (text : List Char) : List Char :=
  let toks := (pySplit text).filter (fun w => 3 < w.length)
  if toks.isEmpty then "General".toList
  else List.intercalate [','] (toks.take 3)

/-- One qualifying candidate of a file line, as both the spec and the loop
body describe it: skip lines blank after trimming, take the first comma
column when a comma occurs, keep candidates of trimmed length > 5. -/
def fileCandidate (line : List Char) : Option (List Char) :=
  if (pyStrip line).isEmpty then none
  else
    let text := if ',' ∈ line then line.takeWhile (fun c => c ≠ ',') else line
    if 5 < (pyStrip text).length then some text else none

/-- All qualifying candidates of a decoded file, in line order. -/
def fileCandidates (lines : List (List Char)) : List (List Char) :=
  lines.filterMap fileCandidate

/-- The qualifying scraped paragraphs: trimmed `<p>` texts of trimmed
length > 20, in document order (before the 50-entry cap). -/
def scrapeQualifying (pTexts : List (List Char)) : List (List Char) :=
  pTexts.filterMap
    (fun p => if 20 < (pyStrip p).length then some (pyStrip p) else none)

/-- The warning component of a file response (`none` on the error payload,
which carries no `meta` key at all). -/
def FileResponse.warningOf : FileResponse → Option String
  | .failed _ => none
  | .ok _ _ w => w

/-- Sign of a rational: +1, -1 or 0. -/
def qsign (q : ℚ) : ℤ :=
  if 0 < q then 1 else if q < 0 then -1 else 0

/-! ## Concrete instances used by witnesses -/

/-- A concrete classifier stub: always "POSITIVE" with confidence 1. -/
def constAnalyzer : List Char → ClassifierOutput :=
  fun _ => ⟨"POSITIVE", 1⟩

/-- A concrete classifier stub: always "NEGATIVE" with confidence 1. -/
def negAnalyzer : List Char → ClassifierOutput :=
  fun _ => ⟨"NEGATIVE", 1⟩

/-! ## Helper lemmas -/

theorem dropWhile_isPySpace_eq_self (l : List Char)
    (h : ∀ c ∈ l, isPySpace c = false) : l.dropWhile isPySpace = l := by
  cases l with
  | nil => rfl
  | cons c cs => simp [List.dropWhile, h c (by simp)]

theorem pyStrip_eq_self (l : List Char)
    (h : ∀ c ∈ l, isPySpace c = false) : pyStrip l = l := by
  unfold pyStrip
  rw [dropWhile_isPySpace_eq_self l h,
      dropWhile_isPySpace_eq_self l.reverse (by simpa using h),
      List.reverse_reverse]

theorem pySplitAux_no_space (cs : List Char) :
    ∀ acc, (∀ c ∈ acc, isPySpace c = false) →
      ∀ tok ∈ pySplitAux cs acc, ∀ c ∈ tok, isPySpace c = false := by
  induction cs with
  | nil =>
    intro acc hacc tok htok c hc
    simp only [pySplitAux] at htok
    by_cases h : acc.isEmpty
    · simp [h] at htok
    · simp [h] at htok
      subst htok
      exact hacc c (by simpa using hc)
  | cons d cs ih =>
    intro acc hacc tok htok c hc
    cases hd : isPySpace d with
    | true =>
      by_cases h : acc.isEmpty
      · simp [pySplitAux, hd, h] at htok
        exact ih [] (by simp) tok htok c hc
      · simp [pySplitAux, hd, h] at htok
        rcases htok with htok | htok
        · subst htok
          exact hacc c (by simpa using hc)
        · exact ih [] (by simp) tok htok c hc
    | false =>
      simp [pySplitAux, hd] at htok
      refine ih (d :: acc) ?_ tok htok c hc
      intro e he
      rcases List.mem_cons.mp he with he | he
      · subst he; exact hd
      · exact hacc e he

theorem pySplit_no_space (text : List Char) :
    ∀ tok ∈ pySplit text, ∀ c ∈ tok, isPySpace c = false :=
  pySplitAux_no_space text [] (by simp)

theorem filterMap_strip_eq_filter (L : List (List Char))
    (h : ∀ tok ∈ L, ∀ c ∈ tok, isPySpace c = false) :
    L.filterMap (fun w => if 3 < w.length then some (pyStrip w) else none) =
      L.filter (fun w => 3 < w.length) := by
  induction L with
  | nil => rfl
  | cons w L ih =>
    have hw : pyStrip w = w := pyStrip_eq_self w (h w (by simp))
    have hL : ∀ tok ∈ L, ∀ c ∈ tok, isPySpace c = false :=
      fun tok htok => h tok (List.mem_cons_of_mem _ htok)
    by_cases hlen : 3 < w.length
    · simp [List.filterMap_cons, List.filter_cons, hlen, hw, ih hL]
    · simp [List.filterMap_cons, List.filter_cons, hlen, ih hL]

/-! ## Claims -/

/-- C5: `extract_keywords` splits on whitespace, retains tokens of length
> 3 in order, joins the first 3 with ",", and returns "General" when none
survive; on "The quick brown fox jumps" it yields "quick,brown,jumps" and
on "a b c" it yields "General". -/
theorem extract_keywords_spec :
    (∀ text, extract_keywords text = specKeywordExtract text) ∧
    extract_keywords "The quick brown fox jumps".toList =
      "quick,brown,jumps".toList ∧
    extract_keywords "a b c".toList = "General".toList := by
  refine ⟨?_, by decide, by decide⟩
  intro text
  unfold extract_keywords specKeywordExtract
  rw [filterMap_strip_eq_filter (pySplit text) (pySplit_no_space text)]

theorem perform_analysis_score_eq (analyzer : List Char → ClassifierOutput)
    (text : List Char) :
    (perform_analysis analyzer text).score =
      if (perform_analysis analyzer text).label = "POSITIVE" then
        (perform_analysis analyzer text).confidence
      else -(perform_analysis analyzer text).confidence := rfl

/-- C1 (amended): the score is +confidence when the label is "POSITIVE" and
-confidence otherwise; when the classifier confidence lies in [0,1],
|score| = confidence and score lies in [-1,1]; and whenever the confidence
is strictly positive, sign(score) = +1 iff the label is "POSITIVE". -/
theorem perform_analysis_score_spec (analyzer : List Char → ClassifierOutput)
    (text : List Char)
    (h0 : 0 ≤ (perform_analysis analyzer text).confidence)
    (h1 : (perform_analysis analyzer text).confidence ≤ 1) :
    ((perform_analysis analyzer text).score =
      if (perform_analysis analyzer text).label = "POSITIVE" then
        (perform_analysis analyzer text).confidence
      else -(perform_analysis analyzer text).confidence) ∧
    |(perform_analysis analyzer text).score| =
      (perform_analysis analyzer text).confidence ∧
    (-1 ≤ (perform_analysis analyzer text).score ∧
      (perform_analysis analyzer text).score ≤ 1) ∧
    (0 < (perform_analysis analyzer text).confidence →
      (qsign (perform_analysis analyzer text).score = 1 ↔
        (perform_analysis analyzer text).label = "POSITIVE")) := by
  have hfield := perform_analysis_score_eq analyzer text
  by_cases hl : (perform_analysis analyzer text).label = "POSITIVE"
  · have hs : (perform_analysis analyzer text).score =
        (perform_analysis analyzer text).confidence := by
      rw [hfield, if_pos hl]
    refine ⟨hfield, ?_, ⟨?_, ?_⟩, ?_⟩
    · rw [hs]; exact abs_of_nonneg h0
    · rw [hs]; linarith
    · rw [hs]; exact h1
    · intro hc
      rw [hs]
      simp [qsign, hc, hl]
  · have hs : (perform_analysis analyzer text).score =
        -(perform_analysis analyzer text).confidence := by
      rw [hfield, if_neg hl]
    refine ⟨hfield, ?_, ⟨?_, ?_⟩, ?_⟩
    · rw [hs, abs_neg]; exact abs_of_nonneg h0
    · rw [hs]; linarith
    · rw [hs]; linarith
    · intro hc
      have hneg : (perform_analysis analyzer text).score < 0 := by
        rw [hs]; linarith
      have hnpos : ¬(0 < (perform_analysis analyzer text).score) := by linarith
      simp [qsign, hnpos, hneg, hl]

/-- C1 counterexample: the classifier interface allows confidence 0; with
output ("POSITIVE", 0) the record has label "POSITIVE" and confidence in
[0,1], yet sign(score) = 0 ≠ +1, refuting "sign(score) matches the label"
as stated. -/
theorem perform_analysis_sign_zero_cex :
    (perform_analysis (fun _ => ⟨"POSITIVE", 0⟩) "great stuff".toList).label =
      "POSITIVE" ∧
    0 ≤ (perform_analysis (fun _ => ⟨"POSITIVE", 0⟩)
      "great stuff".toList).confidence ∧
    (perform_analysis (fun _ => ⟨"POSITIVE", 0⟩)
      "great stuff".toList).confidence ≤ 1 ∧
    qsign (perform_analysis (fun _ => ⟨"POSITIVE", 0⟩)
      "great stuff".toList).score ≠ 1 := by
  decide

/-- C1 witness: the amended statement applied to a concrete negative
classification with confidence 1. -/
theorem perform_analysis_score_spec_witness :
    (0 ≤ (perform_analysis negAnalyzer "bad vibes".toList).confidence ∧
      (perform_analysis negAnalyzer "bad vibes".toList).confidence ≤ 1) ∧
    (((perform_analysis negAnalyzer "bad vibes".toList).score =
      if (perform_analysis negAnalyzer "bad vibes".toList).label = "POSITIVE"
      then (perform_analysis negAnalyzer "bad vibes".toList).confidence
      else -(perform_analysis negAnalyzer "bad vibes".toList).confidence) ∧
    |(perform_analysis negAnalyzer "bad vibes".toList).score| =
      (perform_analysis negAnalyzer "bad vibes".toList).confidence ∧
    (-1 ≤ (perform_analysis negAnalyzer "bad vibes".toList).score ∧
      (perform_analysis negAnalyzer "bad vibes".toList).score ≤ 1) ∧
    (0 < (perform_analysis negAnalyzer "bad vibes".toList).confidence →
      (qsign (perform_analysis negAnalyzer "bad vibes".toList).score = 1 ↔
        (perform_analysis negAnalyzer "bad vibes".toList).label =
          "POSITIVE"))) :=
  ⟨⟨by decide, by decide⟩,
    perform_analysis_score_spec negAnalyzer "bad vibes".toList
      (by decide) (by decide)⟩

/-- C2: for every non-empty input list of n items, `analyze_list` returns
exactly n results, the i-th result being the analysis of the i-th item in
the same order, and `total_scanned = n`. -/
theorem analyze_list_spec (analyzer : List Char → ClassifierOutput)
    (items : List (List Char)) (h : items ≠ []) :
    (analyze_list analyzer items).results.length = items.length ∧
    (analyze_list analyzer items).total_scanned = items.length ∧
    ∀ i : ℕ, (analyze_list analyzer items).results[i]? =
      (items[i]?).map (perform_analysis analyzer) := by
  refine ⟨by simp [analyze_list], by simp [analyze_list], ?_⟩
  intro i
  simp [analyze_list]

/-- C2 witness: a concrete one-element list. -/
theorem analyze_list_spec_witness :
    (["good service".toList] : List (List Char)) ≠ [] ∧
    ((analyze_list constAnalyzer ["good service".toList]).results.length =
      (["good service".toList] : List (List Char)).length ∧
    (analyze_list constAnalyzer ["good service".toList]).total_scanned =
      (["good service".toList] : List (List Char)).length ∧
    (analyze_list constAnalyzer ["good service".toList]).results[0]? =
      ((["good service".toList] : List (List Char))[0]?).map
        (perform_analysis constAnalyzer)) := by
  have h := analyze_list_spec constAnalyzer ["good service".toList]
    (by decide)
  exact ⟨by decide, h.1, h.2.1, h.2.2 0⟩

/-- C10: on the empty input list, `analyze_list` succeeds with
`total_scanned = 0` and empty `results` (the response shape carries no
error field). -/
theorem analyze_list_empty (analyzer : List Char → ClassifierOutput) :
    analyze_list analyzer [] = { total_scanned := 0, results := [] } := rfl

/-- C6: `perform_analysis` consults the classifier only on the first 500
characters of the input, while the returned `text` is the original
untruncated input and `keywords` is the keyword fallback of the original
untruncated input. -/
theorem perform_analysis_truncation (a1 a2 : List Char → ClassifierOutput)
    (text : List Char) (h : a1 (text.take 500) = a2 (text.take 500)) :
    perform_analysis a1 text = perform_analysis a2 text ∧
    (perform_analysis a1 text).text = text ∧
    (perform_analysis a1 text).keywords = extract_keywords text := by
  refine ⟨?_, rfl, rfl⟩
  simp only [perform_analysis]
  rw [h]

/-- C6 witness: two classifiers that agree on the 500-character prefix of a
concrete input produce identical records, with the original text and its
keywords carried through. -/
theorem perform_analysis_truncation_witness :
    constAnalyzer ("machine learning rocks".toList.take 500) =
      (fun t => if t.isEmpty then negAnalyzer t else constAnalyzer t)
        ("machine learning rocks".toList.take 500) ∧
    (perform_analysis constAnalyzer "machine learning rocks".toList =
      perform_analysis
        (fun t => if t.isEmpty then negAnalyzer t else constAnalyzer t)
        "machine learning rocks".toList ∧
    (perform_analysis constAnalyzer "machine learning rocks".toList).text =
      "machine learning rocks".toList ∧
    (perform_analysis constAnalyzer "machine learning rocks".toList).keywords =
      extract_keywords "machine learning rocks".toList) :=
  ⟨by decide,
    perform_analysis_truncation constAnalyzer
      (fun t => if t.isEmpty then negAnalyzer t else constAnalyzer t)
      "machine learning rocks".toList (by decide)⟩

theorem fileLoop_cons (analyzer : List Char → ClassifierOutput)
    (line : List Char) (rest : List (List Char)) (acc : List AnalysisResult)
    (h : ¬ MAX_ROWS ≤ acc.length) :
    fileLoop analyzer (line :: rest) acc =
      match fileCandidate line with
      | some text =>
          fileLoop analyzer rest (acc ++ [perform_analysis analyzer text])
      | none => fileLoop analyzer rest acc := by
  by_cases hblank : (pyStrip line).isEmpty
  · simp [fileLoop, h, hblank, fileCandidate]
  · simp [fileLoop, h, hblank, fileCandidate]
    split <;> split <;> rfl

theorem fileLoop_eq (analyzer : List Char → ClassifierOutput)
    (lines : List (List Char)) : ∀ acc : List AnalysisResult,
    fileLoop analyzer lines acc =
      acc ++ ((fileCandidates lines).take (MAX_ROWS - acc.length)).map
        (perform_analysis analyzer) := by
  induction lines with
  | nil => intro acc; simp [fileLoop, fileCandidates]
  | cons line rest ih =>
    intro acc
    by_cases hcap : MAX_ROWS ≤ acc.length
    · have h0 : MAX_ROWS - acc.length = 0 := Nat.sub_eq_zero_of_le hcap
      simp [fileLoop, hcap, h0]
    · rw [fileLoop_cons analyzer line rest acc hcap]
      cases hcand : fileCandidate line with
      | none =>
        show fileLoop analyzer rest acc = _
        rw [ih acc]
        have hc : fileCandidates (line :: rest) = fileCandidates rest := by
          simp [fileCandidates, List.filterMap_cons, hcand]
        rw [hc]
      | some text =>
        show fileLoop analyzer rest
          (acc ++ [perform_analysis analyzer text]) = _
        rw [ih (acc ++ [perform_analysis analyzer text])]
        have hc : fileCandidates (line :: rest) =
            text :: fileCandidates rest := by
          simp [fileCandidates, List.filterMap_cons, hcand]
        rw [hc]
        have hlen2 : MAX_ROWS - acc.length =
            (MAX_ROWS - (acc ++ [perform_analysis analyzer text]).length) + 1 := by
          simp only [List.length_append, List.length_cons, List.length_nil]
          omega
        rw [hlen2, List.take_succ_cons]
        simp

/-- C4: on a file that decodes as UTF-8, the analyzed texts are exactly the
first min(Q, 500) qualifying candidates in line order (first comma column
or whole line, blank lines skipped, trimmed length > 5), total_scanned is
that count, and candidates beyond 500 are neither classified nor counted. -/
theorem analyze_file_candidates (analyzer : List Char → ClassifierOutput)
    (content : List ℕ) (s : List Char) (h : utf8Decode content = some s) :
    analyze_file analyzer content =
      .ok (min (fileCandidates (splitlines s)).length MAX_ROWS)
        (((fileCandidates (splitlines s)).take MAX_ROWS).map
          (perform_analysis analyzer))
        (if MAX_ROWS < (splitlines s).length then
          some "Capped at 500 rows to prevent timeout."
        else none) := by
  simp only [analyze_file, h]
  rw [fileLoop_eq]
  simp [List.length_take, Nat.min_comm]

/-- A concrete file body: two qualifying lines ("hello friend" and the first
comma column "first column"), one short line, one comma-leading line with an
empty first column, one blank line, one five-character line. -/
def fileTextEx : List Char :=
  "hello friend\nhi\nfirst column,second\n,comma lead\n  \nshort".toList

/-- The UTF-8 bytes of `fileTextEx` (pure ASCII). -/
def fileBytesEx : List ℕ := fileTextEx.map Char.toNat

/-- C4 witness: the theorem applied to the concrete file `fileBytesEx`. -/
theorem analyze_file_candidates_witness :
    utf8Decode fileBytesEx = some fileTextEx ∧
    analyze_file constAnalyzer fileBytesEx =
      .ok (min (fileCandidates (splitlines fileTextEx)).length MAX_ROWS)
        (((fileCandidates (splitlines fileTextEx)).take MAX_ROWS).map
          (perform_analysis constAnalyzer))
        (if MAX_ROWS < (splitlines fileTextEx).length then
          some "Capped at 500 rows to prevent timeout."
        else none) :=
  ⟨by decide,
    analyze_file_candidates constAnalyzer fileBytesEx fileTextEx (by decide)⟩

/-- A decoded file of 500 blank lines followed by one qualifying line:
501 raw lines, exactly one qualifying candidate. -/
def cexText : List Char := List.replicate 500 '\n' ++ "abcdefgh".toList

/-- The UTF-8 bytes of `cexText` (pure ASCII). -/
def cexBytes : List ℕ := cexText.map Char.toNat

set_option maxRecDepth 8000 in
/-- C3 counterexample: this file has qualifying-line count 1 ≤ 500, yet
`meta.warning` is non-null, because the code keys the warning on the raw
decoded line count (501 > 500), not on the qualifying count. -/
theorem analyze_file_warning_cex :
    utf8Decode cexBytes = some cexText ∧
    (fileCandidates (splitlines cexText)).length ≤ MAX_ROWS ∧
    (analyze_file negAnalyzer cexBytes).warningOf ≠ none := by
  decide

/-- C3 (amended): for a file that decodes as UTF-8, `meta.warning` is null
exactly when the raw decoded line count (before blank/short filtering) is
at most 500, and non-null when it exceeds 500. -/
theorem analyze_file_warning_iff (analyzer : List Char → ClassifierOutput)
    (content : List ℕ) (s : List Char) (h : utf8Decode content = some s) :
    ((analyze_file analyzer content).warningOf = none ↔
      (splitlines s).length ≤ MAX_ROWS) := by
  simp only [analyze_file, h]
  rcases Nat.lt_or_ge MAX_ROWS (splitlines s).length with hlen | hlen
  · simp [FileResponse.warningOf, hlen, Nat.not_le.mpr hlen]
  · simp [FileResponse.warningOf, Nat.not_lt.mpr hlen, hlen]

/-- C3 witness: the amended statement applied to the concrete six-line
file `fileBytesEx`. -/
theorem analyze_file_warning_iff_witness :
    utf8Decode fileBytesEx = some fileTextEx ∧
    ((analyze_file constAnalyzer fileBytesEx).warningOf = none ↔
      (splitlines fileTextEx).length ≤ MAX_ROWS) :=
  ⟨by decide,
    analyze_file_warning_iff constAnalyzer fileBytesEx fileTextEx (by decide)⟩

/-- C7: a file upload whose bytes are not valid UTF-8 fails as a whole: the
response is exactly the error payload (no `results` key, no `meta` key),
independent of the classifier, so no line is classified. -/
theorem analyze_file_decode_error (analyzer : List Char → ClassifierOutput)
    (content : List ℕ) (h : utf8Decode content = none) :
    analyze_file analyzer content =
      .failed "Invalid file encoding. Use UTF-8." := by
  simp only [analyze_file, h]

/-- C7 witness: the single byte 0xFF is not valid UTF-8. -/
theorem analyze_file_decode_error_witness :
    utf8Decode [255] = none ∧
    analyze_file constAnalyzer [255] =
      .failed "Invalid file encoding. Use UTF-8." :=
  ⟨by decide, analyze_file_decode_error constAnalyzer [255] (by decide)⟩

theorem scrape_url_eq (analyzer : List Char → ClassifierOutput)
    (pTexts : List (List Char)) :
    scrape_url analyzer pTexts =
      if ((scrapeQualifying pTexts).take 50).isEmpty then
        .failed "No readable paragraph text found on this URL." []
      else
        .ok (((scrapeQualifying pTexts).take 50).map
          (perform_analysis analyzer)).length
          (((scrapeQualifying pTexts).take 50).map
            (perform_analysis analyzer)) := rfl

/-- C8: the scrape operation classifies exactly the `<p>` texts whose
trimmed length exceeds 20 characters, truncated to the first 50 in document
order, and total_scanned = min(Q, 50). -/
theorem scrape_url_cap (analyzer : List Char → ClassifierOutput)
    (pTexts : List (List Char)) (h : scrapeQualifying pTexts ≠ []) :
    scrape_url analyzer pTexts =
      .ok (min (scrapeQualifying pTexts).length 50)
        (((scrapeQualifying pTexts).take 50).map
          (perform_analysis analyzer)) := by
  obtain ⟨a, t, hq⟩ := List.exists_cons_of_ne_nil h
  have htake : (a :: t).take 50 = a :: t.take 49 := rfl
  rw [scrape_url_eq, hq, htake]
  simp [ScrapeResponse.ok.injEq, List.length_map, List.length_cons,
    List.length_take]
  omega

/-- The paragraph texts of a page with 80 qualifying `<p>` elements. -/
def pTextsEx : List (List Char) :=
  List.replicate 80 "abcdefghijklmnopqrstu".toList

/-- C8 witness: with 80 qualifying paragraphs, total_scanned = 50. -/
theorem scrape_url_cap_witness :
    scrapeQualifying pTextsEx ≠ [] ∧
    scrape_url constAnalyzer pTextsEx =
      .ok 50 (((scrapeQualifying pTextsEx).take 50).map
        (perform_analysis constAnalyzer)) := by
  have h := scrape_url_cap constAnalyzer pTextsEx (by decide)
  refine ⟨by decide, ?_⟩
  rw [h]
  have hlen : (scrapeQualifying pTextsEx).length = 80 := by decide
  rw [hlen]
  norm_num

/-- C9: when no fetched paragraph has trimmed length > 20, the scrape
operation returns exactly the "no readable paragraph" payload with empty
results, independently of the classifier (nothing is classified). -/
theorem scrape_url_no_content (analyzer : List Char → ClassifierOutput)
    (pTexts : List (List Char)) (h : scrapeQualifying pTexts = []) :
    scrape_url analyzer pTexts =
      .failed "No readable paragraph text found on this URL." [] := by
  rw [scrape_url_eq, h]
  rfl

/-- C9 witness: a page whose two paragraphs are blank-trimmed-short and
14 characters long has no qualifying paragraph. -/
theorem scrape_url_no_content_witness :
    scrapeQualifying ["  hi  ".toList, "tiny paragraph".toList] = [] ∧
    scrape_url constAnalyzer ["  hi  ".toList, "tiny paragraph".toList] =
      .failed "No readable paragraph text found on this URL." [] :=
  ⟨by decide,
    scrape_url_no_content constAnalyzer
      ["  hi  ".toList, "tiny paragraph".toList] (by decide)⟩

end SentientX
